import Mathlib

/-
Verification of the ttyd terminal transport and command-execution engine.

The development shallowly embeds the command-execution utility
(`executeTtydCommand` and its helpers `stripAnsiCodes`, `wrapCommand`,
`buildWsUrl`, the end-marker regex scan) together with the interactive
terminal client's frame construction (`sendData`), close/reconnect handler,
and the `useTerminal` hook's reconnect-timer state machine.

Strings are modelled as `List Char` (the decoded text level); the byte level
frame codec is modelled separately over `List Nat`.  Event-driven promise
code is modelled as explicit state passing: a job state plus a step function
over the events its registered handlers can receive.
-/

set_option autoImplicit false

namespace Ttyd

/-- Characters of the `END_MARKER_PREFIX` constant `___TTYD_EXEC_END___`. -/
def endMarkerChars : List Char := "___TTYD_EXEC_END___".data

/-- Character class `[0-9;]` of the ANSI escape regex `\x1b\[[0-9;]*[a-zA-Z]`. -/
def isAnsiParam (c : Char) : Bool := c.isDigit || c = ';'

/-- Character class `[a-zA-Z]` that terminates an ANSI escape sequence. -/
def isAsciiLetter (c : Char) : Bool := ('a' ≤ c && c ≤ 'z') || ('A' ≤ c && c ≤ 'Z')

/-- The ESC character `\x1b`. -/
def escChar : Char := Char.ofNat 27

/-- Scanner mode for the global regex replace in `stripAnsiCodes`:
either outside any candidate match, or having consumed `ESC`, or having
consumed `ESC [` plus the parameter characters seen so far. -/
inductive AnsiMode
  | plain
  | sawEsc
  | inSeq (params : List Char)

/-- One left-to-right pass implementing
`str.replace(/\x1b\[[0-9;]*[a-zA-Z]/g, '')`: a complete match
`ESC [ params letter` is dropped; a failed candidate is emitted verbatim and
scanning resumes at the character that broke it (which can itself start a new
candidate only if it is `ESC`, since none of the consumed characters can). -/
def stripAnsiGo : AnsiMode → List Char → List Char
  | .plain, [] => []
  | .sawEsc, [] => [escChar]
  | .inSeq ps, [] => escChar :: '[' :: ps
  | .plain, c :: r =>
      if c = escChar then stripAnsiGo .sawEsc r else c :: stripAnsiGo .plain r
  | .sawEsc, c :: r =>
      if c = '[' then stripAnsiGo (.inSeq []) r
      else if c = escChar then escChar :: stripAnsiGo .sawEsc r
      else escChar :: c :: stripAnsiGo .plain r
  | .inSeq ps, c :: r =>
      if isAnsiParam c then stripAnsiGo (.inSeq (ps ++ [c])) r
      else if isAsciiLetter c then stripAnsiGo .plain r
      else if c = escChar then (escChar :: '[' :: ps) ++ stripAnsiGo .sawEsc r
      else (escChar :: '[' :: ps) ++ c :: stripAnsiGo .plain r

/-- Model of `stripAnsiCodes`. -/
def stripAnsiCodes (l : List Char) : List Char := stripAnsiGo .plain l

/-- ASCII whitespace removed by `String.prototype.trim`. -/
def isJsWs (c : Char) : Bool :=
  c = ' ' || c = '\t' || c = '\n' || c = '\r' || c = Char.ofNat 11 || c = Char.ofNat 12

/-- Model of `.trim()`. -/
def trimChars (l : List Char) : List Char :=
  ((l.dropWhile isJsWs).reverse.dropWhile isJsWs).reverse

/-- Value of `parseInt(s, 10)` on a string of decimal digits. -/
def digitsToNat (l : List Char) : Nat := l.foldl (fun a c => a * 10 + (c.toNat - 48)) 0

/-- Split a list into its maximal leading run of decimal digits and the rest;
this is how the greedy `(\d+)` group of the end-marker regex consumes input. -/
def takeDigits : List Char → List Char × List Char
  | [] => ([], [])
  | c :: r =>
      if c.isDigit then
        let p := takeDigits r
        (c :: p.1, p.2)
      else ([], c :: r)

/-- Whether a list begins with a decimal digit. -/
def startsDigit : List Char → Bool
  | [] => false
  | c :: _ => c.isDigit

/-- Boolean test that the first list is an initial segment of the second. -/
def isPrefixOfChars : List Char → List Char → Bool
  | [], _ => true
  | _ :: _, [] => false
  | p :: ps, c :: cs => p = c && isPrefixOfChars ps cs

/-- Remove a required initial segment, or fail. -/
def dropStart : List Char → List Char → Option (List Char)
  | [], l => some l
  | _ :: _, [] => none
  | p :: ps, c :: cs => if p = c then dropStart ps cs else none

/-- Model of `String.prototype.includes`: substring occurrence. -/
def containsSub (pat : List Char) : List Char → Bool
  | [] => isPrefixOfChars pat []
  | l@(_ :: rest) => isPrefixOfChars pat l || containsSub pat rest

/-- Model of `String.prototype.split('\n')`. -/
def splitOnNl : List Char → List (List Char)
  | [] => [[]]
  | c :: rest =>
      if c = '\n' then [] :: splitOnNl rest
      else
        match splitOnNl rest with
        | [] => [[c]]
        | a :: as => (c :: a) :: as

/-- Model of `Array.prototype.join('\n')`. -/
def joinNl : List (List Char) → List Char
  | [] => []
  | [a] => a
  | a :: as => a ++ '\n' :: joinNl as

/-- Model of `str.replace(new RegExp(`pat-line`), '')` where the pattern is
`.*` followed by `pat` followed by `.*\n?`: the first newline-free segment
containing `pat` is removed together with its trailing newline when present.
The accumulator holds the current line's characters read so far. -/
def removeEchoLineAux (pat : List Char) (cur : List Char) : List Char → List Char
  | [] => if containsSub pat cur then [] else cur
  | c :: rest =>
      if c = '\n' then
        if containsSub pat cur then rest
        else cur ++ '\n' :: removeEchoLineAux pat [] rest
      else removeEchoLineAux pat (cur ++ [c]) rest

/-- Remove the first line containing `pat`, with its trailing newline. -/
def removeEchoLine (pat l : List Char) : List Char := removeEchoLineAux pat [] l

/-- Model of `wrapCommand`: subshell plus echoed end marker carrying `$?`. -/
def wrapCommand (command markerId : List Char) : List Char :=
  '(' :: command ++ ')' :: "; echo \"".data ++ endMarkerChars ++ markerId ++ ":$?___\"".data

/-- Attempt of the end-marker regex `END_MARKER_PREFIX<markerId>:(\d+)___`
anchored at the start of `l`; returns the captured digit group on success. -/
def matchMarkerAt (markerId l : List Char) : Option (List Char) :=
  match dropStart (endMarkerChars ++ markerId ++ [':']) l with
  | none => none
  | some rest =>
      let p := takeDigits rest
      if p.1 ≠ [] ∧ p.2.take 3 = ['_', '_', '_'] then some p.1 else none

/-- Leftmost-match search of the end-marker regex, tracking the absolute
index `i` of the current scan position (this is `match.index` in JS). -/
def findMarkerFrom (markerId : List Char) : Nat → List Char → Option (Nat × List Char)
  | _, [] => none
  | i, l@(_ :: rest) =>
      match matchMarkerAt markerId l with
      | some ds => some (i, ds)
      | none => findMarkerFrom markerId (i + 1) rest

/-- Model of `outputBuffer.match(endMarkerPattern)`: leftmost match index and
captured exit-code digits. -/
def findMarker (markerId buf : List Char) : Option (Nat × List Char) :=
  findMarkerFrom markerId 0 buf

/-- The echoed end marker line for a given markerId and exit-code digits:
`___TTYD_EXEC_END___<markerId>:<digits>___`. -/
def markerLineFor (markerId ds : List Char) : List Char :=
  endMarkerChars ++ markerId ++ ':' :: ds ++ "___".data

/-- Alphanumeric characters `[A-Za-z0-9]`. -/
def isAlnumChar (c : Char) : Bool := c.isDigit || isAsciiLetter c

/-- Modelled from the spec: `generateRandomString` (imported from the
`common` utility module, which is not part of the embedded sources) produces
the job's `markerId`; per the spec's wire-protocol section a markerId matches
`[A-Za-z0-9]` repeated 8 or more times. -/
def specMarkerIdOk (markerId : List Char) : Bool :=
  8 ≤ markerId.length && markerId.all isAlnumChar

/-- Occurrence, anywhere in a list, of the end-marker prefix plus the given
markerId plus `:` immediately followed by a decimal digit.  This is the
"marker-prefix collision" shape that can capture the wrong exit code. -/
def hasCollisionFrom (pat : List Char) : List Char → Bool
  | [] => false
  | l@(_ :: rest) =>
      (isPrefixOfChars pat l && startsDigit (l.drop pat.length)) || hasCollisionFrom pat rest

/-- Whether `O` contains `___TTYD_EXEC_END___<markerId>:` followed by a digit. -/
def hasMarkerCollision (markerId O : List Char) : Bool :=
  hasCollisionFrom (endMarkerChars ++ markerId ++ [':']) O

-- ==========================================================================
-- Frame codec (byte level)
-- ==========================================================================

/-- Client frame construction in `sendData` / `executeTtydCommand`: the
single command-code byte is prepended to the payload bytes. -/
def encodeFrame (code : Nat) (payload : List Nat) : List Nat := code :: payload

/-- Server frame parsing in the message handlers: byte 0 is the code and the
rest is the payload; a zero-length message does not decode (handlers treat it
as a no-op). -/
def decodeFrame : List Nat → Option (Nat × List Nat)
  | [] => none
  | c :: p => some (c, p)

-- ==========================================================================
-- Command execution job (`executeTtydCommand`)
-- ==========================================================================

/-- Error kinds of `TtydExecErrorCode`. -/
inductive TtydExecErrorCode
  | CONNECTION_FAILED
  | AUTHENTICATION_FAILED
  | TIMEOUT
  | WEBSOCKET_ERROR
  | PROTOCOL_ERROR
deriving DecidableEq, Repr

/-- A `TtydExecError`: message text plus error kind. -/
structure TtydExecError where
  message : List Char
  code : TtydExecErrorCode
deriving DecidableEq, Repr

/-- A `TtydExecResult`. -/
structure TtydExecResult where
  output : List Char
  exitCode : Int
  timedOut : Bool
  durationMs : Nat
deriving DecidableEq, Repr

/-- The per-job inputs of `executeTtydCommand` that its handlers close over. -/
structure JobConfig where
  accessToken : List Char
  command : List Char
  sessionId : Option (List Char)
  authorization : Option (List Char)
  cols : Nat
  rows : Nat
  stripAnsi : Bool
  markerId : List Char
deriving Repr

instance : DecidableEq (Except TtydExecError TtydExecResult)
  | .ok a, .ok b =>
      if h : a = b then .isTrue (by rw [h]) else .isFalse (by simp [h])
  | .ok _, .error _ => .isFalse (by simp)
  | .error _, .ok _ => .isFalse (by simp)
  | .error a, .error b =>
      if h : a = b then .isTrue (by rw [h]) else .isFalse (by simp [h])

/-- The mutable locals of the `executeTtydCommand` promise executor:
`outputBuffer`, `isResolved`, whether `timeoutHandle` is non-null, whether
`ws` is non-null (socket not yet closed by `cleanup`), plus the promise's
settlement, if any. -/
structure JobState where
  outputBuffer : List Char
  isResolved : Bool
  timeoutPending : Bool
  wsOpen : Bool
  settled : Option (Except TtydExecError TtydExecResult)
deriving DecidableEq, Repr

/-- Initial job state: empty buffer, unresolved, timeout armed, socket live. -/
def initJob : JobState :=
  { outputBuffer := [], isResolved := false, timeoutPending := true,
    wsOpen := true, settled := none }

/-- Model of `cleanup`: clear the timer and close/null the socket. -/
def cleanup (s : JobState) : JobState := { s with timeoutPending := false, wsOpen := false }

/-- Model of `resolveWith`. -/
def resolveWith (r : TtydExecResult) (s : JobState) : JobState :=
  if s.isResolved then s
  else { cleanup s with isResolved := true, settled := some (Except.ok r) }

/-- Model of `rejectWith`. -/
def rejectWith (e : TtydExecError) (s : JobState) : JobState :=
  if s.isResolved then s
  else { cleanup s with isResolved := true, settled := some (Except.error e) }

/-- Model of the timeout callback installed with `setTimeout(..., timeoutMs)`;
`now` is the elapsed time `Date.now() - startTime` when it fires. -/
def onTimeout (cfg : JobConfig) (now : Nat) (s : JobState) : JobState :=
  resolveWith
    { output := if cfg.stripAnsi then stripAnsiCodes s.outputBuffer else s.outputBuffer,
      exitCode := -1, timedOut := true, durationMs := now } s

/-- The post-match output processing of the message handler, applied to the
buffer sliced at `match.index`: strip the echoed command line (the first line
containing both the marker prefix and the markerId), strip the first
remaining line containing prefix plus markerId together with its newline,
optionally strip ANSI codes, and trim. -/
def cleanAndTrim (cfg : JobConfig) (raw : List Char) : List Char :=
  let lines := splitOnNl raw
  let lines2 :=
    match lines.findIdx? (fun line =>
        containsSub endMarkerChars line && containsSub cfg.markerId line) with
    | some j => lines.eraseIdx j
    | none => lines
  let cleaned := removeEchoLine (endMarkerChars ++ cfg.markerId) (joinNl lines2)
  trimChars (if cfg.stripAnsi then stripAnsiCodes cleaned else cleaned)

/-- The `ServerCommand.OUTPUT` / `ClientCommand.INPUT` code character `'0'`. -/
def outputCode : Char := '0'

/-- Model of the `ws.onMessage` handler: frame code dispatch, buffer append,
end-marker scan, and resolution on a match. -/
def onMessage (cfg : JobConfig) (data : List Char) (now : Nat) (s : JobState) : JobState :=
  match data with
  | [] => s
  | cmd :: payload =>
      if cmd = outputCode then
        let buf := s.outputBuffer ++ payload
        let s1 := { s with outputBuffer := buf }
        match findMarker cfg.markerId buf with
        | none => s1
        | some (idx, ds) =>
            resolveWith
              { output := cleanAndTrim cfg (buf.take idx),
                exitCode := (digitsToNat ds : Int), timedOut := false, durationMs := now } s1
      else s

/-- The substring tested by `reason?.includes('auth')`. -/
def authWord : List Char := "auth".data

/-- Error classification of the `ws.onClose` handler for a premature close. -/
def classifyClose (code : Nat) (reason : List Char) : TtydExecError :=
  if code = 1008 ∨ containsSub authWord reason = true then
    { message := "Authentication failed: ".data ++ reason,
      code := .AUTHENTICATION_FAILED }
  else
    { message := "Connection closed unexpectedly: code=".data ++ (Nat.repr code).data ++
        ", reason=".data ++ reason,
      code := .CONNECTION_FAILED }

/-- Model of the `ws.onError` handler. -/
def onError (msg : List Char) (s : JobState) : JobState :=
  rejectWith { message := "WebSocket error: ".data ++ msg, code := .WEBSOCKET_ERROR } s

/-- Model of the `ws.onClose` handler. -/
def onClose (code : Nat) (reason : List Char) (s : JobState) : JobState :=
  if s.isResolved then s else rejectWith (classifyClose code reason) s

/-- The events a job's registered handlers can receive. -/
inductive Event
  | message (data : List Char) (now : Nat)
  | timeout (now : Nat)
  | wsError (msg : List Char)
  | wsClose (code : Nat) (reason : List Char)

/-- Dispatch one event to the corresponding handler. -/
def step (cfg : JobConfig) (s : JobState) : Event → JobState
  | .message data now => onMessage cfg data now s
  | .timeout now => onTimeout cfg now s
  | .wsError msg => onError msg s
  | .wsClose code reason => onClose code reason s

/-- Run a job from its initial state through a sequence of events. -/
def runJob (cfg : JobConfig) (evs : List Event) : JobState :=
  evs.foldl (step cfg) initJob

-- ==========================================================================
-- Handshake and outbound messages (`onOpen`, `buildWsUrl`)
-- ==========================================================================

/-- The structured content of the initial JSON control message
`{columns, rows, AuthToken}`; `authToken = none` models the `AuthToken` key
being absent (`JSON.stringify` drops `undefined`-valued properties). -/
structure ControlMsg where
  columns : Nat
  rows : Nat
  authToken : Option (List Char)
deriving DecidableEq, Repr

/-- An outbound client message: either the unframed JSON control message or
an `INPUT` frame with the given payload text. -/
inductive OutMsg
  | control (m : ControlMsg)
  | input (payload : List Char)
deriving DecidableEq, Repr

/-- Whether an outbound message is an `INPUT` frame. -/
def isInputMsg : OutMsg → Bool
  | .input _ => true
  | .control _ => false

/-- Outbound messages produced by the job's `onOpen` handler: first the
control message, then — after the 100 ms settle delay, and only if the socket
is still open — the wrapped command and the Enter key as `INPUT` frames. -/
def onOpenOutbound (cfg : JobConfig) (stillOpenAfterDelay : Bool) : List OutMsg :=
  OutMsg.control { columns := cfg.cols, rows := cfg.rows, authToken := cfg.authorization } ::
    (if stillOpenAfterDelay then
      [OutMsg.input (wrapCommand cfg.command cfg.markerId), OutMsg.input [Char.ofNat 13]]
    else [])

/-- Query parameters appended by `buildWsUrl`, in order:
`arg=accessToken`, optionally `arg=sessionId`, optionally
`authorization=authorization`. -/
def buildWsUrlParams (accessToken : List Char) (sessionId authorization : Option (List Char)) :
    List (List Char × List Char) :=
  [("arg".data, accessToken)] ++
    (match sessionId with | some sid => [("arg".data, sid)] | none => []) ++
    (match authorization with | some a => [("authorization".data, a)] | none => [])

-- ==========================================================================
-- Interactive terminal (`xterm-terminal.tsx`)
-- ==========================================================================

/-- WebSocket ready states. -/
inductive ReadyState
  | connecting
  | rsOpen
  | closing
  | closed
deriving DecidableEq, Repr

/-- Payload given to the interactive terminal's `sendData`. -/
inductive SendPayload
  | text (s : List Char)
  | binary (b : List Char)

/-- Model of the interactive terminal's `sendData`: returns the frames put on
the wire (each as code character plus payload text).  With no socket, or a
socket whose `readyState` is not `OPEN`, it returns without sending. -/
def sendData (socket : Option ReadyState) (d : SendPayload) : List (List Char) :=
  match socket with
  | none => []
  | some rs =>
      if rs ≠ ReadyState.rsOpen then []
      else
        match d with
        | .text s => [outputCode :: s]
        | .binary b => [outputCode :: b]

/-- The fixed reconnect delay of the interactive terminal's close handler. -/
def reconnectDelayMs : Nat := 3000

/-- State observed by the interactive terminal's `socket.onclose` handler:
the component mount flag, whether the socket field is set, and the delays of
the reconnect attempts it has scheduled. -/
structure XtermCloseState where
  mounted : Bool
  socketOpen : Bool
  scheduledReconnects : List Nat
deriving DecidableEq, Repr

/-- Model of `socket.onclose`: when mounted, null the socket and — only for an
abnormal close code (≠ 1000) — schedule exactly one reconnect after the fixed
delay. -/
def xtermOnClose (code : Nat) (s : XtermCloseState) : XtermCloseState :=
  if s.mounted = false then s
  else
    { s with
        socketOpen := false
        scheduledReconnects :=
          s.scheduledReconnects ++ (if code ≠ 1000 then [reconnectDelayMs] else []) }

-- ==========================================================================
-- `useTerminal` hook reconnect-timer state machine
-- ==========================================================================

/-- Connection status values of the hook. -/
inductive HookStatus
  | disconnected
  | connecting
  | connected
  | error
deriving DecidableEq, Repr

/-- State of the `useTerminal` hook.  `pendingTimers` lists the ids of
reconnect timers that are scheduled, unfired, and uncancelled;
`timerRef` is `reconnectTimeoutRef.current` (it tracks only the most recently
scheduled timer); `shouldReconnect` is `shouldReconnectRef.current`. -/
structure HookState where
  status : HookStatus
  wsUrl : Option (List Char)
  ttydUrl : Option (List Char)
  autoReconnect : Bool
  shouldReconnect : Bool
  pendingTimers : List Nat
  timerRef : Option Nat
  nextTimerId : Nat
deriving DecidableEq, Repr

/-- Hook state on mount with the given `ttydUrl` and `autoReconnect`. -/
def hookInit (url : Option (List Char)) (auto : Bool) : HookState :=
  { status := if url.isSome then .connecting else .disconnected,
    wsUrl := url, ttydUrl := url, autoReconnect := auto, shouldReconnect := true,
    pendingTimers := [], timerRef := none, nextTimerId := 0 }

/-- `clearTimeout(reconnectTimeoutRef.current); reconnectTimeoutRef.current = null`. -/
def clearRefTimer (s : HookState) : HookState :=
  match s.timerRef with
  | none => s
  | some id => { s with pendingTimers := s.pendingTimers.filter (· ≠ id), timerRef := none }

/-- Model of `handleConnected`. -/
def hookHandleConnected (s : HookState) : HookState :=
  { s with status := .connected, shouldReconnect := s.autoReconnect }

/-- Model of `handleDisconnected`: set status, and when reconnection is
enabled and a url is present, schedule a fresh timer, overwriting the ref
without clearing any previously scheduled timer. -/
def hookHandleDisconnected (s : HookState) : HookState :=
  if s.shouldReconnect = true ∧ s.wsUrl ≠ none then
    { s with
        status := HookStatus.disconnected
        pendingTimers := s.pendingTimers ++ [s.nextTimerId]
        timerRef := some s.nextTimerId
        nextTimerId := s.nextTimerId + 1 }
  else { s with status := HookStatus.disconnected }

/-- A scheduled reconnect timer fires: it is removed from the pending set and
the hook re-enters `connecting` (the callback refreshes `wsUrl`). -/
def hookTimerFire (id : Nat) (s : HookState) : HookState :=
  if id ∈ s.pendingTimers then
    { s with pendingTimers := s.pendingTimers.filter (· ≠ id), status := .connecting }
  else s

/-- Model of `reconnect()`: clear the ref-held timer, re-enable reconnection,
enter `connecting`, and refresh `wsUrl` from `ttydUrl` when present. -/
def hookReconnect (s : HookState) : HookState :=
  let s1 := clearRefTimer s
  let s2 := { s1 with shouldReconnect := true, status := HookStatus.connecting }
  match s2.ttydUrl with
  | some u => { s2 with wsUrl := some u }
  | none => s2

/-- Model of `disconnect()`: disable reconnection, clear the ref-held timer,
and freeze in `disconnected`. -/
def hookDisconnect (s : HookState) : HookState :=
  let s1 := clearRefTimer { s with shouldReconnect := false }
  { s1 with status := HookStatus.disconnected, wsUrl := none }

/-- Events driving the hook. -/
inductive HookEvent
  | connected
  | disconnected
  | reconnect
  | disconnect
  | fire (id : Nat)

/-- Dispatch one hook event. -/
def hookStep (s : HookState) : HookEvent → HookState
  | .connected => hookHandleConnected s
  | .disconnected => hookHandleDisconnected s
  | .reconnect => hookReconnect s
  | .disconnect => hookDisconnect s
  | .fire id => hookTimerFire id s

/-- Run the hook through a sequence of events. -/
def hookRun (s : HookState) (evs : List HookEvent) : HookState :=
  evs.foldl hookStep s

/-- The single-pending-timer shape that does hold of the hook: at most one
timer pending and any pending timer is the one the ref tracks. -/
def hookTimerInv (s : HookState) : Bool :=
  decide (s.pendingTimers.length ≤ 1) &&
    s.pendingTimers.all (fun id => s.timerRef = some id)

/-- Side condition of a separated trace at one event: a `disconnected`
notification arrives with no reconnect timer pending. -/
def sepOk : HookState → HookEvent → Bool
  | s, HookEvent.disconnected => decide (s.pendingTimers = [])
  | _, _ => true

/-- A trace is separated when every `disconnected` event arrives with no
reconnect timer pending (the previous one fired or was cleared). -/
def separatedTrace (s : HookState) : List HookEvent → Bool
  | [] => true
  | e :: rest => sepOk s e && separatedTrace (hookStep s e) rest

-- ==========================================================================
-- Job-state invariants
-- ==========================================================================

/-- Invariant of a job: the resolved flag mirrors settlement, and a settled
job has closed its socket and cleared its timer. -/
def JobInv (s : JobState) : Prop :=
  s.isResolved = s.settled.isSome ∧
    (s.isResolved = true → s.wsOpen = false ∧ s.timeoutPending = false)

lemma jobInv_init : JobInv initJob := by
  constructor <;> simp [initJob]

lemma jobInv_resolveWith (r : TtydExecResult) (s : JobState) (h : JobInv s) :
    JobInv (resolveWith r s) := by
  unfold resolveWith
  split
  · exact h
  · constructor <;> simp [cleanup]

lemma jobInv_rejectWith (e : TtydExecError) (s : JobState) (h : JobInv s) :
    JobInv (rejectWith e s) := by
  unfold rejectWith
  split
  · exact h
  · constructor <;> simp [cleanup]

lemma jobInv_step (cfg : JobConfig) (s : JobState) (e : Event) (h : JobInv s) :
    JobInv (step cfg s e) := by
  cases e with
  | message data now =>
      show JobInv (onMessage cfg data now s)
      unfold onMessage
      cases data with
      | nil => exact h
      | cons cmd payload =>
          by_cases hc : cmd = outputCode
          · simp only [hc, if_pos rfl]
            cases hfm : findMarker cfg.markerId (s.outputBuffer ++ payload) with
            | none => simpa [hfm] using ⟨h.1, h.2⟩
            | some p =>
                cases p with
                | mk idx ds =>
                    simp only [hfm]
                    exact jobInv_resolveWith _ _ ⟨h.1, h.2⟩
          · simp only [if_neg hc]
            exact h
  | timeout now => exact jobInv_resolveWith _ _ h
  | wsError msg => exact jobInv_rejectWith _ _ h
  | wsClose code reason =>
      show JobInv (onClose code reason s)
      unfold onClose
      split
      · exact h
      · exact jobInv_rejectWith _ _ h

lemma jobInv_foldl (cfg : JobConfig) (evs : List Event) (s : JobState) (h : JobInv s) :
    JobInv (evs.foldl (step cfg) s) := by
  induction evs generalizing s with
  | nil => exact h
  | cons e rest ih => exact ih _ (jobInv_step cfg s e h)

lemma jobInv_runJob (cfg : JobConfig) (evs : List Event) : JobInv (runJob cfg evs) :=
  jobInv_foldl cfg evs initJob jobInv_init

lemma step_settled_of_resolved (cfg : JobConfig) (s : JobState) (e : Event)
    (h : s.isResolved = true) :
    (step cfg s e).settled = s.settled ∧ (step cfg s e).isResolved = true := by
  cases e with
  | message data now =>
      cases data with
      | nil => exact ⟨rfl, h⟩
      | cons cmd payload =>
          by_cases hc : cmd = outputCode
          · subst hc
            cases hfm : findMarker cfg.markerId (s.outputBuffer ++ payload) with
            | none => constructor <;> simp [step, onMessage, hfm, h]
            | some p =>
                obtain ⟨idx, ds⟩ := p
                constructor <;> simp [step, onMessage, hfm, resolveWith, h]
          · constructor <;> simp [step, onMessage, hc, h]
  | timeout now => constructor <;> simp [step, onTimeout, resolveWith, h]
  | wsError msg => constructor <;> simp [step, onError, rejectWith, h]
  | wsClose code reason => constructor <;> simp [step, onClose, h]

-- ==========================================================================
-- Shared witness fixtures
-- ==========================================================================

/-- A concrete job configuration used by witness instantiations. -/
def witCfg : JobConfig :=
  { accessToken := "tok".data, command := "true".data, sessionId := none,
    authorization := some "YWJjOmRlZg==".data, cols := 120, rows := 30,
    stripAnsi := true, markerId := "a1b2c3d4".data }

/-- A concrete session output used by the round-trip witness: the shell's
echo of the wrapped command, then the command's own output. -/
def witO : List Char := "echo test; ___TTYD_EXEC_END___a1b2c3d4:$?___\nhello\n".data

/-- A concrete pre-marker output carrying a marker-prefix collision: it
contains the marker prefix, the markerId, a colon and a digit, but no
complete marker pattern (no `___` terminator). -/
def cexO : List Char := "___TTYD_EXEC_END___a1b2c3d4:5".data

-- ==========================================================================
-- Claim C2 — timeout resolves, never rejects
-- ==========================================================================

/-- Claim C2: if `timeoutMs` elapses before the end marker has been found,
`executeTtydCommand` resolves — it never rejects on timeout — with
`timedOut = true`, `exitCode = -1`, and output equal to whatever has been
captured so far (ANSI-stripped when `stripAnsi` is enabled). -/
theorem execTimeout_resolves (cfg : JobConfig) (evs : List Event) (now : Nat)
    (h : (runJob cfg evs).isResolved = false) :
    (runJob cfg (evs ++ [Event.timeout now])).settled =
      some (Except.ok
        { output :=
            if cfg.stripAnsi then stripAnsiCodes (runJob cfg evs).outputBuffer
            else (runJob cfg evs).outputBuffer,
          exitCode := -1, timedOut := true, durationMs := now }) := by
  have hrw : runJob cfg (evs ++ [Event.timeout now]) =
      step cfg (runJob cfg evs) (Event.timeout now) := by
    simp [runJob, List.foldl_append]
  rw [hrw]
  show (onTimeout cfg now (runJob cfg evs)).settled = _
  simp [onTimeout, resolveWith, h]

theorem execTimeout_resolves_witness :
    (runJob witCfg ([] ++ [Event.timeout 5])).settled =
      some (Except.ok { output := [], exitCode := -1, timedOut := true, durationMs := 5 }) :=
  execTimeout_resolves witCfg [] 5 (by rfl)

-- ==========================================================================
-- Claim C4 — close/error classification
-- ==========================================================================

/-- Claim C4: a premature close rejects with a `TtydExecError` whose code is
`AUTHENTICATION_FAILED` exactly when the close code is 1008 or the reason
contains `auth`, and `CONNECTION_FAILED` otherwise; a transport error event
before resolution rejects with `WEBSOCKET_ERROR`. -/
theorem execClose_classification (s : JobState) (code : Nat) (reason msg : List Char)
    (h : s.isResolved = false) :
    (onClose code reason s).settled = some (Except.error (classifyClose code reason)) ∧
    ((classifyClose code reason).code = TtydExecErrorCode.AUTHENTICATION_FAILED ↔
      (code = 1008 ∨ containsSub authWord reason = true)) ∧
    ((classifyClose code reason).code ≠ TtydExecErrorCode.AUTHENTICATION_FAILED →
      (classifyClose code reason).code = TtydExecErrorCode.CONNECTION_FAILED) ∧
    (onError msg s).settled =
      some (Except.error
        { message := "WebSocket error: ".data ++ msg
          code := TtydExecErrorCode.WEBSOCKET_ERROR }) := by
  refine ⟨?_, ?_, ?_, ?_⟩
  · simp [onClose, rejectWith, h]
  · unfold classifyClose
    split
    · simp_all
    · simp_all
  · unfold classifyClose
    split
    · simp
    · simp
  · simp [onError, rejectWith, h]

theorem execClose_classification_witness :
    (onClose 1008 ['x'] initJob).settled =
      some (Except.error (classifyClose 1008 ['x'])) ∧
    ((classifyClose 1008 ['x']).code = TtydExecErrorCode.AUTHENTICATION_FAILED ↔
      ((1008 : Nat) = 1008 ∨ containsSub authWord ['x'] = true)) ∧
    ((classifyClose 1008 ['x']).code ≠ TtydExecErrorCode.AUTHENTICATION_FAILED →
      (classifyClose 1008 ['x']).code = TtydExecErrorCode.CONNECTION_FAILED) ∧
    (onError ['m'] initJob).settled =
      some (Except.error
        { message := "WebSocket error: ".data ++ ['m']
          code := TtydExecErrorCode.WEBSOCKET_ERROR }) :=
  execClose_classification initJob 1008 ['x'] ['m'] (by rfl)

-- ==========================================================================
-- Claim C5 — cleanup on termination, settle at most once
-- ==========================================================================

/-- Claim C5: whenever a job has terminated (by marker match, timeout, or
rejection) its socket is closed and its timeout timer cleared, the promise is
settled, and any further close, error, or message event is swallowed: it
neither changes the settlement nor un-resolves the job. -/
theorem execJob_settles_once (cfg : JobConfig) (evs : List Event) (e : Event)
    (h : (runJob cfg evs).isResolved = true) :
    (runJob cfg evs).wsOpen = false ∧ (runJob cfg evs).timeoutPending = false ∧
    (runJob cfg evs).settled.isSome = true ∧
    (step cfg (runJob cfg evs) e).settled = (runJob cfg evs).settled ∧
    (step cfg (runJob cfg evs) e).isResolved = true := by
  obtain ⟨h1, h2⟩ := jobInv_runJob cfg evs
  obtain ⟨hws, hto⟩ := h2 h
  obtain ⟨hs1, hs2⟩ := step_settled_of_resolved cfg (runJob cfg evs) e h
  exact ⟨hws, hto, h ▸ h1.symm, hs1, hs2⟩

theorem execJob_settles_once_witness :
    (runJob witCfg [Event.wsClose 1006 []]).wsOpen = false ∧
    (runJob witCfg [Event.wsClose 1006 []]).timeoutPending = false ∧
    (runJob witCfg [Event.wsClose 1006 []]).settled.isSome = true ∧
    (step witCfg (runJob witCfg [Event.wsClose 1006 []]) (Event.wsError ['e'])).settled =
      (runJob witCfg [Event.wsClose 1006 []]).settled ∧
    (step witCfg (runJob witCfg [Event.wsClose 1006 []]) (Event.wsError ['e'])).isResolved = true :=
  execJob_settles_once witCfg [Event.wsClose 1006 []] (Event.wsError ['e']) (by rfl)

-- ==========================================================================
-- Claim C6 — handshake first, INPUT frames after
-- ==========================================================================

/-- Claim C6: immediately after the transport opens, the job's first outbound
message is the single JSON control message carrying the terminal geometry and
an `AuthToken` equal to the same authorization value placed in the connection
URL's `authorization` query parameter, and every `INPUT` frame comes after it. -/
theorem handshake_first_outbound (cfg : JobConfig) (a : List Char) (b : Bool)
    (i : Nat) (m : OutMsg)
    (hauth : cfg.authorization = some a)
    (hm : (onOpenOutbound cfg b).get? i = some m)
    (hinp : isInputMsg m = true) :
    ("authorization".data, a) ∈
      buildWsUrlParams cfg.accessToken cfg.sessionId cfg.authorization ∧
    (onOpenOutbound cfg b).head? =
      some (OutMsg.control { columns := cfg.cols, rows := cfg.rows, authToken := some a }) ∧
    0 < i := by
  refine ⟨?_, ?_, ?_⟩
  · rw [hauth]
    cases cfg.sessionId <;> simp [buildWsUrlParams]
  · simp [onOpenOutbound, hauth]
  · cases i with
    | zero =>
        have hm0 : m = OutMsg.control
            { columns := cfg.cols, rows := cfg.rows, authToken := cfg.authorization } := by
          simpa [onOpenOutbound] using hm.symm
        rw [hm0] at hinp
        simp [isInputMsg] at hinp
    | succ n => exact Nat.succ_pos n

theorem handshake_first_outbound_witness :
    ("authorization".data, "YWJjOmRlZg==".data) ∈
      buildWsUrlParams witCfg.accessToken witCfg.sessionId witCfg.authorization ∧
    (onOpenOutbound witCfg true).head? =
      some (OutMsg.control
        { columns := 120, rows := 30, authToken := some "YWJjOmRlZg==".data }) ∧
    0 < 1 :=
  handshake_first_outbound witCfg "YWJjOmRlZg==".data true 1
    (OutMsg.input (wrapCommand witCfg.command witCfg.markerId)) (by rfl) (by rfl) (by rfl)

-- ==========================================================================
-- Claim C7 — frame codec round trip
-- ==========================================================================

/-- Claim C7: for every valid code/payload byte pair, decoding an encoded
frame returns exactly the original code and payload; the first byte of every
encoded frame is the code and the payload is everything after it. -/
theorem frame_codec_roundtrip (code : Nat) (payload : List Nat)
    (hc : code < 256) (hp : ∀ b ∈ payload, b < 256) :
    decodeFrame (encodeFrame code payload) = some (code, payload) ∧
    (encodeFrame code payload).head? = some code ∧
    (encodeFrame code payload).tail = payload :=
  ⟨rfl, rfl, rfl⟩

theorem frame_codec_roundtrip_witness :
    decodeFrame (encodeFrame 48 [104, 105]) = some (48, [104, 105]) ∧
    (encodeFrame 48 [104, 105]).head? = some 48 ∧
    (encodeFrame 48 [104, 105]).tail = [104, 105] :=
  frame_codec_roundtrip 48 [104, 105] (by decide) (by decide)

-- ==========================================================================
-- Claim C9 — xterm reconnect policy on close
-- ==========================================================================

/-- Claim C9: after the interactive terminal's socket closes with a code
different from 1000 exactly one reconnection attempt is scheduled, after the
fixed delay; after a normal (code 1000) closure none is scheduled. -/
theorem xterm_reconnect_policy (s : XtermCloseState) (code : Nat)
    (h : s.mounted = true) :
    (code ≠ 1000 →
      (xtermOnClose code s).scheduledReconnects =
        s.scheduledReconnects ++ [reconnectDelayMs]) ∧
    (code = 1000 → (xtermOnClose code s).scheduledReconnects = s.scheduledReconnects) ∧
    (xtermOnClose code s).socketOpen = false := by
  unfold xtermOnClose
  rw [h]
  refine ⟨fun hc => by simp [hc], fun hc => by simp [hc], by simp⟩

theorem xterm_reconnect_policy_witness :
    ((1006 : Nat) ≠ 1000 →
      (xtermOnClose 1006 ⟨true, true, []⟩).scheduledReconnects = [] ++ [reconnectDelayMs]) ∧
    ((1006 : Nat) = 1000 →
      (xtermOnClose 1006 ⟨true, true, []⟩).scheduledReconnects = []) ∧
    (xtermOnClose 1006 ⟨true, true, []⟩).socketOpen = false :=
  xterm_reconnect_policy ⟨true, true, []⟩ 1006 (by rfl)

-- ==========================================================================
-- Claim C10 — sendData is a silent no-op without an open socket
-- ==========================================================================

/-- Claim C10: when the socket is absent or not `OPEN`, `sendData` sends
nothing: no frame reaches the wire, nothing is queued, and no exception is
raised (the model is a total function whose output lists every sent frame). -/
theorem sendData_guard_noop (socket : Option ReadyState) (d : SendPayload)
    (h : socket ≠ some ReadyState.rsOpen) :
    sendData socket d = [] := by
  cases socket with
  | none => rfl
  | some rs =>
      have hrs : rs ≠ ReadyState.rsOpen := fun hh => h (by rw [hh])
      simp [sendData, hrs]

theorem sendData_guard_noop_witness :
    sendData (some ReadyState.connecting) (SendPayload.text "ls".data) = [] :=
  sendData_guard_noop (some ReadyState.connecting) (SendPayload.text "ls".data) (by simp)

-- ==========================================================================
-- Claim C8 — useTerminal reconnect timers
-- ==========================================================================

lemma clearRefTimer_pending_nil (s : HookState) (h : hookTimerInv s = true) :
    (clearRefTimer s).pendingTimers = [] := by
  unfold hookTimerInv at h
  rw [Bool.and_eq_true, decide_eq_true_iff, List.all_eq_true] at h
  unfold clearRefTimer
  cases href : s.timerRef with
  | none =>
      cases hp : s.pendingTimers with
      | nil => simpa [hp]
      | cons x xs =>
          have := h.2 x (by rw [hp]; exact List.mem_cons_self x xs)
          rw [href] at this
          simp at this
  | some id =>
      simp only
      rw [List.filter_eq_nil]
      intro a ha
      have := h.2 a ha
      rw [href] at this
      simp at this
      simp [this]

lemma hookInv_step (s : HookState) (e : HookEvent)
    (h : hookTimerInv s = true)
    (hsep : e = HookEvent.disconnected → s.pendingTimers = []) :
    hookTimerInv (hookStep s e) = true := by
  cases e with
  | connected =>
      unfold hookTimerInv at h ⊢
      simpa [hookStep, hookHandleConnected] using h
  | disconnected =>
      have hp := hsep rfl
      show hookTimerInv (hookHandleDisconnected s) = true
      unfold hookHandleDisconnected
      split
      · simp [hookTimerInv, hp]
      · unfold hookTimerInv at h ⊢
        simpa using h
  | reconnect =>
      have hnil := clearRefTimer_pending_nil s h
      show hookTimerInv (hookReconnect s) = true
      unfold hookReconnect
      cases hurl : (clearRefTimer s).ttydUrl <;>
        simp [hurl, hookTimerInv, hnil]
  | disconnect =>
      have hnil : (clearRefTimer { s with shouldReconnect := false }).pendingTimers = [] := by
        apply clearRefTimer_pending_nil
        unfold hookTimerInv at h ⊢
        simpa using h
      show hookTimerInv (hookDisconnect s) = true
      unfold hookDisconnect
      simp [hookTimerInv, hnil]
  | fire id =>
      show hookTimerInv (hookTimerFire id s) = true
      unfold hookTimerFire
      split
      · rename_i hmem
        unfold hookTimerInv at h
        rw [Bool.and_eq_true, decide_eq_true_iff, List.all_eq_true] at h
        obtain ⟨hlen, hall⟩ := h
        have hpend : s.pendingTimers = [id] := by
          cases hp : s.pendingTimers with
          | nil => rw [hp] at hmem; cases hmem
          | cons x xs =>
              rw [hp] at hmem hlen
              have hxs : xs = [] := by
                rw [List.length_cons] at hlen
                exact List.eq_nil_of_length_eq_zero (by omega)
              subst hxs
              simp at hmem
              simp [hmem]
        rw [hpend]
        simp [hookTimerInv]
      · exact h

lemma hookInv_run (s : HookState) (evs : List HookEvent)
    (h : hookTimerInv s = true) (hsep : separatedTrace s evs = true) :
    hookTimerInv (hookRun s evs) = true := by
  induction evs generalizing s with
  | nil => exact h
  | cons e rest ih =>
      rw [separatedTrace, Bool.and_eq_true] at hsep
      obtain ⟨hsep1, hsep2⟩ := hsep
      have hstep : hookTimerInv (hookStep s e) = true := by
        apply hookInv_step s e h
        intro he
        subst he
        simpa [sepOk] using hsep1
      exact ih (hookStep s e) hstep hsep2

lemma hookInv_pending_le_one (s : HookState) (h : hookTimerInv s = true) :
    s.pendingTimers.length ≤ 1 := by
  unfold hookTimerInv at h
  rw [Bool.and_eq_true, decide_eq_true_iff] at h
  exact h.1

/-- Claim C8 counterexample: two back-to-back disconnect notifications leave
two reconnect timers pending at once (`handleDisconnected` overwrites the
timer ref without clearing the previous timer), and a subsequent
`reconnect()` clears only the ref-held timer, leaving the orphaned one
pending.  This refutes the claim as stated. -/
theorem useTerminal_single_timer_cex :
    ¬ ((hookRun (hookInit (some ['u']) true)
          [HookEvent.disconnected, HookEvent.disconnected]).pendingTimers.length ≤ 1) ∧
    (hookRun (hookInit (some ['u']) true)
        [HookEvent.disconnected, HookEvent.disconnected,
          HookEvent.reconnect]).pendingTimers ≠ [] := by
  decide

/-- Claim C8 (amended): provided no two disconnect notifications arrive
without the pending reconnect timer having fired or been cleared in between,
at most one reconnect timer is pending at any time, any pending timer is the
one tracked by the ref, and calling `reconnect()` or `disconnect()` clears
the pending timer (leaving none pending) before doing anything else. -/
theorem useTerminal_single_timer_amended (s : HookState) (evs : List HookEvent)
    (h : hookTimerInv s = true) (hsep : separatedTrace s evs = true) :
    hookTimerInv (hookRun s evs) = true ∧
    (hookRun s evs).pendingTimers.length ≤ 1 ∧
    (hookStep (hookRun s evs) HookEvent.reconnect).pendingTimers = [] ∧
    (hookStep (hookRun s evs) HookEvent.disconnect).pendingTimers = [] := by
  have hinv := hookInv_run s evs h hsep
  refine ⟨hinv, hookInv_pending_le_one _ hinv, ?_, ?_⟩
  · have hnil := clearRefTimer_pending_nil (hookRun s evs) hinv
    show (hookReconnect (hookRun s evs)).pendingTimers = []
    unfold hookReconnect
    cases hurl : (clearRefTimer (hookRun s evs)).ttydUrl <;> simp [hurl, hnil]
  · have hnil : (clearRefTimer { hookRun s evs with shouldReconnect := false }).pendingTimers
        = [] := by
      apply clearRefTimer_pending_nil
      unfold hookTimerInv at hinv ⊢
      simpa using hinv
    show (hookDisconnect (hookRun s evs)).pendingTimers = []
    unfold hookDisconnect
    simpa using hnil

theorem useTerminal_single_timer_amended_witness :
    hookTimerInv (hookRun (hookInit (some ['u']) true)
      [HookEvent.disconnected, HookEvent.fire 0, HookEvent.disconnected]) = true ∧
    (hookRun (hookInit (some ['u']) true)
      [HookEvent.disconnected, HookEvent.fire 0,
        HookEvent.disconnected]).pendingTimers.length ≤ 1 ∧
    (hookStep (hookRun (hookInit (some ['u']) true)
      [HookEvent.disconnected, HookEvent.fire 0, HookEvent.disconnected])
        HookEvent.reconnect).pendingTimers = [] ∧
    (hookStep (hookRun (hookInit (some ['u']) true)
      [HookEvent.disconnected, HookEvent.fire 0, HookEvent.disconnected])
        HookEvent.disconnect).pendingTimers = [] :=
  useTerminal_single_timer_amended (hookInit (some ['u']) true)
    [HookEvent.disconnected, HookEvent.fire 0, HookEvent.disconnected]
    (by decide) (by decide)

-- ==========================================================================
-- Claim C3 — the marker scan anchors on the exact markerId
-- ==========================================================================

lemma dropStart_sound (p l r : List Char) (h : dropStart p l = some r) : l = p ++ r := by
  induction p generalizing l with
  | nil =>
      simp [dropStart] at h
      simp [h]
  | cons a as ih =>
      cases l with
      | nil => simp [dropStart] at h
      | cons c cs =>
          rw [dropStart] at h
          split at h

          · rename_i heq
            have := ih cs h
            simp [heq, this]
          · exact absurd h (by simp)

lemma takeDigits_eq (l d t : List Char) (h : takeDigits l = (d, t)) :
    l = d ++ t ∧ d.all Char.isDigit = true := by
  induction l generalizing d t with
  | nil =>
      rw [takeDigits] at h
      obtain ⟨rfl, rfl⟩ := Prod.mk.injEq .. ▸ h
      exact ⟨rfl, rfl⟩
  | cons c r ih =>
      rw [takeDigits] at h
      split at h
      · rename_i hd
        cases htd : takeDigits r with
        | mk d0 t0 =>
            rw [htd] at h
            obtain ⟨ih1, ih2⟩ := ih d0 t0 htd
            cases h
            constructor
            · simpa using ih1
            · simpa [hd] using ih2
      · cases h
        exact ⟨rfl, rfl⟩

lemma matchMarkerAt_decomp (markerId l ds : List Char)
    (h : matchMarkerAt markerId l = some ds) :
    ds ≠ [] ∧ ds.all Char.isDigit = true ∧
      ∃ rest, l = endMarkerChars ++ markerId ++ ':' :: ds ++ '_' :: '_' :: '_' :: rest := by
  unfold matchMarkerAt at h
  cases hds : dropStart (endMarkerChars ++ markerId ++ [':']) l with
  | none => rw [hds] at h; exact absurd h (by simp)
  | some r0 =>
      rw [hds] at h
      simp only at h
      cases htd : takeDigits r0 with
      | mk d t =>
          rw [htd] at h
          simp only at h
          split at h
          · rename_i hcond
            have hdeq : d = ds := by simpa using h
            subst hdeq
            obtain ⟨hr0, hdig⟩ := takeDigits_eq r0 d t htd
            have hl := dropStart_sound _ _ _ hds
            refine ⟨hcond.1, hdig, t.drop 3, ?_⟩
            have hfull : l = (endMarkerChars ++ markerId ++ [':']) ++ (d ++ t) := by
              rw [hl, hr0]
            have htk : t = '_' :: '_' :: '_' :: t.drop 3 := by
              conv_lhs => rw [← List.take_append_drop 3 t]
              rw [hcond.2]
              rfl
            rw [htk] at hfull
            rw [hfull]
            simp
          · exact absurd h (by simp)

lemma findMarkerFrom_some (markerId l : List Char) (i j : Nat) (ds : List Char)
    (h : findMarkerFrom markerId i l = some (j, ds)) :
    ∃ k, j = i + k ∧ matchMarkerAt markerId (l.drop k) = some ds := by
  induction l generalizing i with
  | nil => simp [findMarkerFrom] at h
  | cons c rest ih =>
      rw [findMarkerFrom] at h
      cases hm : matchMarkerAt markerId (c :: rest) with
      | some ds0 =>
          rw [hm] at h
          simp at h
          exact ⟨0, by omega, by simpa [← h.2] using hm⟩
      | none =>
          rw [hm] at h
          simp only at h
          obtain ⟨k, hk, hmatch⟩ := ih (i + 1) h
          exact ⟨k + 1, by omega, by simpa using hmatch⟩

lemma findMarker_some (markerId buf : List Char) (j : Nat) (ds : List Char)
    (h : findMarker markerId buf = some (j, ds)) :
    matchMarkerAt markerId (buf.drop j) = some ds := by
  obtain ⟨k, hk, hmatch⟩ := findMarkerFrom_some markerId buf 0 j ds h
  simpa [show j = k by omega] using hmatch

lemma onMessage_nil (cfg : JobConfig) (now : Nat) (s : JobState) :
    onMessage cfg [] now s = s := rfl

lemma onMessage_other (cfg : JobConfig) (cmd : Char) (payload : List Char) (now : Nat)
    (s : JobState) (hc : cmd ≠ outputCode) :
    onMessage cfg (cmd :: payload) now s = s := by
  unfold onMessage
  simp [hc]

lemma onMessage_none (cfg : JobConfig) (payload : List Char) (now : Nat) (s : JobState)
    (hfm : findMarker cfg.markerId (s.outputBuffer ++ payload) = none) :
    onMessage cfg (outputCode :: payload) now s =
      { s with outputBuffer := s.outputBuffer ++ payload } := by
  unfold onMessage
  simp [hfm]

lemma onMessage_found (cfg : JobConfig) (payload : List Char) (now : Nat) (s : JobState)
    (idx : Nat) (ds : List Char)
    (hfm : findMarker cfg.markerId (s.outputBuffer ++ payload) = some (idx, ds)) :
    onMessage cfg (outputCode :: payload) now s =
      resolveWith
        { output := cleanAndTrim cfg ((s.outputBuffer ++ payload).take idx),
          exitCode := (digitsToNat ds : Int), timedOut := false, durationMs := now }
        { s with outputBuffer := s.outputBuffer ++ payload } := by
  unfold onMessage
  simp [hfm]

/-- Claim C3: a message event can resolve an unresolved job only when the
accumulated buffer contains, at the match index, the exact pattern
`___TTYD_EXEC_END___<markerId>:<decimal digits>___` built from this job's own
markerId; output with a different identifier after the prefix, or with a
non-decimal exit-code field, never causes a resolution. -/
theorem exec_marker_exactness (cfg : JobConfig) (s : JobState) (data : List Char) (now : Nat)
    (h1 : s.isResolved = false)
    (h2 : (onMessage cfg data now s).isResolved = true) :
    ∃ i rest ds, ds ≠ [] ∧ ds.all Char.isDigit = true ∧
      ((onMessage cfg data now s).outputBuffer).drop i =
        endMarkerChars ++ cfg.markerId ++ ':' :: ds ++ '_' :: '_' :: '_' :: rest := by
  cases data with
  | nil => rw [onMessage_nil] at h2; rw [h2] at h1; cases h1
  | cons cmd payload =>
      by_cases hc : cmd = outputCode
      · subst hc
        cases hfm : findMarker cfg.markerId (s.outputBuffer ++ payload) with
        | none =>
            rw [onMessage_none cfg payload now s hfm] at h2
            rw [show ({ s with outputBuffer := s.outputBuffer ++ payload } :
                JobState).isResolved = s.isResolved from rfl, h1] at h2
            cases h2
        | some p =>
            obtain ⟨idx, ds⟩ := p
            rw [onMessage_found cfg payload now s idx ds hfm]
            have hmatch := findMarker_some cfg.markerId (s.outputBuffer ++ payload) idx ds hfm
            obtain ⟨hne, hdig, rest, hshape⟩ := matchMarkerAt_decomp _ _ _ hmatch
            refine ⟨idx, rest, ds, hne, hdig, ?_⟩
            have hbuf : (resolveWith
                { output := cleanAndTrim cfg ((s.outputBuffer ++ payload).take idx),
                  exitCode := (digitsToNat ds : Int), timedOut := false, durationMs := now }
                { s with outputBuffer := s.outputBuffer ++ payload }).outputBuffer =
                s.outputBuffer ++ payload := by
              unfold resolveWith cleanup
              split <;> rfl
            rw [hbuf]
            exact hshape
      · rw [onMessage_other cfg cmd payload now s hc] at h2
        rw [h2] at h1
        cases h1

-- ==========================================================================
-- Claim C1 — round-trip machinery
-- ==========================================================================

lemma getD_drop_eq (l : List Char) (i t : Nat) (c : Char) :
    (l.drop i).getD t c = l.getD (i + t) c := by
  induction l generalizing i with
  | nil => simp
  | cons a l' ih =>
      cases i with
      | zero => simp
      | succ i' =>
          rw [List.drop_succ_cons, ih i',
            show i' + 1 + t = (i' + t) + 1 from by omega, List.getD_cons_succ]

lemma getD_take_eq (l : List Char) (n t : Nat) (c : Char) (h : t < n) :
    (l.take n).getD t c = l.getD t c := by
  induction l generalizing n t with
  | nil => simp
  | cons a l' ih =>
      cases n with
      | zero => omega
      | succ n' =>
          cases t with
          | zero => simp
          | succ t' =>
              rw [List.take_succ_cons]
              show (l'.take n').getD t' c = l'.getD t' c
              exact ih n' t' (by omega)

lemma getD_append_lt (a b : List Char) (k : Nat) (c : Char) (h : k < a.length) :
    (a ++ b).getD k c = a.getD k c := by
  induction a generalizing k with
  | nil => simp at h
  | cons x a' ih =>
      cases k with
      | zero => rfl
      | succ k' =>
          show (a' ++ b).getD k' c = a'.getD k' c
          exact ih k' (by simpa using h)

lemma getD_append_ge (a b : List Char) (k : Nat) (c : Char) (h : a.length ≤ k) :
    (a ++ b).getD k c = b.getD (k - a.length) c := by
  induction a generalizing k with
  | nil => simp
  | cons x a' ih =>
      cases k with
      | zero => simp at h
      | succ k' =>
          show (a' ++ b).getD k' c = _
          rw [ih k' (by simpa using h)]
          have hnum : k' + 1 - (x :: a').length = k' - a'.length := by
            simp only [List.length_cons]
            omega
          rw [hnum]

lemma getD_mem (l : List Char) (k : Nat) (c : Char) (h : k < l.length) :
    l.getD k c ∈ l := by
  induction l generalizing k with
  | nil => simp at h
  | cons a l' ih =>
      cases k with
      | zero => exact List.mem_cons_self ..
      | succ k' => exact List.mem_cons_of_mem _ (ih k' (by simpa using h))

lemma isPrefixOfChars_iff_exists (p l : List Char) :
    isPrefixOfChars p l = true ↔ ∃ r, l = p ++ r := by
  induction p generalizing l with
  | nil =>
      simp only [isPrefixOfChars, List.nil_append]
      exact ⟨fun _ => ⟨l, rfl⟩, fun _ => trivial⟩
  | cons a p' ih =>
      cases l with
      | nil =>
          simp only [isPrefixOfChars]
          constructor
          · intro h; cases h
          · rintro ⟨r, hr⟩; cases hr
      | cons c l' =>
          rw [isPrefixOfChars, Bool.and_eq_true, decide_eq_true_iff, ih]
          constructor
          · rintro ⟨hac, r, hr⟩
            exact ⟨r, by rw [hac, hr]; rfl⟩
          · rintro ⟨r, hr⟩
            rw [List.cons_append] at hr
            injection hr with h1 h2
            exact ⟨h1.symm, r, h2⟩

lemma dropStart_append (p r : List Char) : dropStart p (p ++ r) = some r := by
  induction p with
  | nil => rfl
  | cons a p' ih => simpa [dropStart] using ih

lemma matchMarkerAt_nil (id : List Char) : matchMarkerAt id [] = none := by
  unfold matchMarkerAt
  cases h : dropStart (endMarkerChars ++ id ++ [':']) [] with
  | none => rfl
  | some r =>
      have h2 := dropStart_sound _ _ _ h
      have h3 := congrArg List.length h2
      simp [endMarkerChars] at h3

lemma takeDigits_digits_append (ds r : List Char) (hdig : ds.all Char.isDigit = true)
    (hr : startsDigit r = false) :
    takeDigits (ds ++ r) = (ds, r) := by
  induction ds with
  | nil =>
      simp only [List.nil_append]
      cases r with
      | nil => rfl
      | cons c r' =>
          rw [takeDigits]
          rw [startsDigit] at hr
          simp [hr]
  | cons c ds' ih =>
      rw [List.cons_append, takeDigits]
      rw [List.all_cons, Bool.and_eq_true] at hdig
      simp [hdig.1, ih hdig.2]

lemma matchMarkerAt_markerLine (id ds T : List Char)
    (hne : ds ≠ []) (hdig : ds.all Char.isDigit = true) :
    matchMarkerAt id (markerLineFor id ds ++ T) = some ds := by
  have h1 : markerLineFor id ds ++ T =
      (endMarkerChars ++ id ++ [':']) ++ (ds ++ '_' :: '_' :: '_' :: T) := by
    simp [markerLineFor, show "___".data = ['_', '_', '_'] from rfl]
  have h2 : takeDigits (ds ++ '_' :: '_' :: '_' :: T) = (ds, '_' :: '_' :: '_' :: T) :=
    takeDigits_digits_append ds _ hdig (by rfl)
  unfold matchMarkerAt
  rw [h1, dropStart_append]
  simp [h2, hne]

lemma findMarkerFrom_of (id l : List Char) (i n : Nat) (ds : List Char)
    (hlt : ∀ k, k < n → matchMarkerAt id (l.drop k) = none)
    (hn : matchMarkerAt id (l.drop n) = some ds) :
    findMarkerFrom id i l = some (i + n, ds) := by
  induction n generalizing l i with
  | zero =>
      rw [List.drop_zero] at hn
      cases l with
      | nil => rw [matchMarkerAt_nil] at hn; cases hn
      | cons c rest =>
          rw [findMarkerFrom, hn]
          simp
  | succ n ih =>
      cases l with
      | nil =>
          rw [List.drop_nil, matchMarkerAt_nil] at hn
          cases hn
      | cons c rest =>
          rw [findMarkerFrom]
          have h0 := hlt 0 (Nat.succ_pos n)
          rw [List.drop_zero] at h0
          rw [h0]
          show findMarkerFrom id (i + 1) rest = some (i + (n + 1), ds)
          have hrec := ih rest (i + 1)
            (fun k hk => by simpa using hlt (k + 1) (by omega))
            (by simpa using hn)
          rw [hrec]
          have hnum : i + 1 + n = i + (n + 1) := by omega
          rw [hnum]

lemma findMarker_at (id O M ds : List Char)
    (hnone : ∀ k, k < O.length → matchMarkerAt id ((O ++ M).drop k) = none)
    (hmatch : matchMarkerAt id ((O ++ M).drop O.length) = some ds) :
    findMarker id (O ++ M) = some (O.length, ds) := by
  have h := findMarkerFrom_of id (O ++ M) 0 O.length ds hnone hmatch
  simpa [findMarker] using h

lemma hasCollisionFrom_of_at (pat O : List Char) (k : Nat) (hk : k < O.length)
    (h1 : isPrefixOfChars pat (O.drop k) = true)
    (h2 : startsDigit ((O.drop k).drop pat.length) = true) :
    hasCollisionFrom pat O = true := by
  induction O generalizing k with
  | nil => simp at hk
  | cons c O' ih =>
      rw [hasCollisionFrom, Bool.or_eq_true]
      cases k with
      | zero =>
          left
          rw [List.drop_zero] at h1 h2
          rw [Bool.and_eq_true]
          exact ⟨h1, h2⟩
      | succ k' =>
          right
          rw [List.drop_succ_cons] at h1 h2
          exact ih k' (by simpa using hk) h1 h2

/-- The word `___TTYD_EXEC_END___<markerId>` has no nontrivial border: no
proper suffix of it is also a prefix.  This is what rules out a marker-regex
match straddling the boundary between command output and the genuine marker
line, and it holds because the prefix constant ends in underscores while a
markerId is at least eight alphanumeric characters. -/
lemma no_border_aux (id : List Char) (halnum : id.all isAlnumChar = true) (j u : Nat)
    (hperiod : ∀ t, t < (endMarkerChars ++ id).length - j →
      (endMarkerChars ++ id).getD (j + t) ' ' = (endMarkerChars ++ id).getD t ' ')
    (hu1 : j + u < 19 + id.length) (hu2 : 19 ≤ j + u) (hu3 : u < 19)
    (hu4 : endMarkerChars.getD u ' ' = '_') : False := by
  have hElen : endMarkerChars.length = 19 := by decide
  have hWlen : (endMarkerChars ++ id).length = 19 + id.length := by
    simp [List.length_append, hElen]
  have ht := hperiod u (by omega)
  have hleft : (endMarkerChars ++ id).getD (j + u) ' ' = id.getD (j + u - 19) ' ' := by
    rw [getD_append_ge _ _ _ _ (by omega), hElen]
  have hright : (endMarkerChars ++ id).getD u ' ' = '_' := by
    rw [getD_append_lt _ _ _ _ (by omega)]
    exact hu4
  have hmem : id.getD (j + u - 19) ' ' ∈ id := getD_mem _ _ _ (by omega)
  have halnum2 := List.all_eq_true.mp halnum _ hmem
  rw [hleft, hright] at ht
  rw [ht] at halnum2
  exact absurd halnum2 (by decide)

lemma no_border (id : List Char) (hlen : 8 ≤ id.length)
    (halnum : id.all isAlnumChar = true) (j : Nat)
    (hj1 : 1 ≤ j) (hj2 : j < (endMarkerChars ++ id).length)
    (heq : (endMarkerChars ++ id).drop j =
      (endMarkerChars ++ id).take ((endMarkerChars ++ id).length - j)) : False := by
  have hElen : endMarkerChars.length = 19 := by decide
  have hWlen : (endMarkerChars ++ id).length = 19 + id.length := by
    simp [List.length_append, hElen]
  have hperiod : ∀ t, t < (endMarkerChars ++ id).length - j →
      (endMarkerChars ++ id).getD (j + t) ' ' = (endMarkerChars ++ id).getD t ' ' := by
    intro t ht
    have h2 := congrArg (fun l => l.getD t ' ') heq
    simp only at h2
    rw [getD_drop_eq] at h2
    rw [getD_take_eq _ _ _ _ ht] at h2
    exact h2
  by_cases hcase : j ≤ id.length
  · exact no_border_aux id halnum j 18 hperiod (by omega) (by omega) (by omega) (by decide)
  · push_neg at hcase
    by_cases h3 : j - id.length ≤ 3
    · exact no_border_aux id halnum j 12 hperiod (by omega) (by omega) (by omega) (by decide)
    by_cases h8 : j - id.length ≤ 8
    · exact no_border_aux id halnum j 7 hperiod (by omega) (by omega) (by omega) (by decide)
    by_cases h10 : j - id.length ≤ 10
    · exact no_border_aux id halnum j 2 hperiod (by omega) (by omega) (by omega) (by decide)
    · exact no_border_aux id halnum j 0 hperiod (by omega) (by omega) (by omega) (by decide)

/-- A marker-regex match cannot start inside the final stretch of output
that is too short to hold the whole pattern before the genuine marker line:
it would force the word `___TTYD_EXEC_END___<markerId>` to overlap itself
(ruled out by `no_border`) or force a digit or colon where the genuine
marker line has an underscore. -/
lemma short_straddle_impossible (id ds T o X : List Char) (d : Char)
    (hlen : 8 ≤ id.length) (halnum : id.all isAlnumChar = true)
    (hd : d.isDigit = true)
    (ho1 : 1 ≤ o.length)
    (hA : o.length < (endMarkerChars ++ id).length + 2)
    (hEQ : o ++ (markerLineFor id ds ++ T) =
      ((endMarkerChars ++ id) ++ [':']) ++ d :: X) : False := by
  have hElen : endMarkerChars.length = 19 := by decide
  have hWlen : (endMarkerChars ++ id).length = 19 + id.length := by
    simp [List.length_append, hElen]
  have hMW : markerLineFor id ds ++ T =
      (endMarkerChars ++ id) ++ ':' :: (ds ++ "___".data ++ T) := by
    simp [markerLineFor]
  have hMcons : markerLineFor id ds ++ T =
      '_' :: ("__TTYD_EXEC_END___".data ++ id ++ ':' :: ds ++ "___".data ++ T) := by
    simp [markerLineFor, show endMarkerChars = '_' :: "__TTYD_EXEC_END___".data from rfl]
  have hPX : ((((endMarkerChars ++ id) ++ [':']) ++ [d]).take o.length ++
      (((((endMarkerChars ++ id) ++ [':']) ++ [d]).drop o.length) ++ X)) =
      ((endMarkerChars ++ id) ++ [':']) ++ d :: X := by
    rw [← List.append_assoc, List.take_append_drop]
    simp
  have hEQ2 : o ++ (markerLineFor id ds ++ T) =
      (((endMarkerChars ++ id) ++ [':']) ++ [d]).take o.length ++
        (((((endMarkerChars ++ id) ++ [':']) ++ [d]).drop o.length) ++ X) := by
    rw [hEQ, hPX]
  have hltk : o.length = ((((endMarkerChars ++ id) ++ [':']) ++ [d]).take o.length).length := by
    rw [List.length_take]
    simp only [List.length_append, List.length_cons, List.length_nil]
    omega
  obtain ⟨ho, hM⟩ := List.append_inj hEQ2 hltk
  by_cases hB : o.length = (endMarkerChars ++ id).length + 1
  · have hdrop : ((((endMarkerChars ++ id) ++ [':']) ++ [d]).drop o.length) = [d] :=
      List.drop_left' (by
        simp only [List.length_append, List.length_cons, List.length_nil, hB])
    rw [hdrop, hMcons, List.singleton_append] at hM
    injection hM with h1 _
    rw [← h1] at hd
    exact absurd hd (by decide)
  by_cases hC : o.length = (endMarkerChars ++ id).length
  · have hdrop : ((((endMarkerChars ++ id) ++ [':']) ++ [d]).drop o.length) = [':', d] := by
      rw [List.append_assoc]
      exact List.drop_left' hC.symm
    rw [hdrop, hMcons] at hM
    injection hM with h1 _
    cases h1
  · have hD : o.length < (endMarkerChars ++ id).length := by omega
    have hdrop : ((((endMarkerChars ++ id) ++ [':']) ++ [d]).drop o.length) =
        ((endMarkerChars ++ id).drop o.length ++ [':']) ++ [d] := by
      rw [List.drop_append_of_le_length (by simp; omega),
        List.drop_append_of_le_length (le_of_lt hD)]
    rw [hdrop, hMW] at hM
    have hM2 : (endMarkerChars ++ id) ++ ':' :: (ds ++ "___".data ++ T) =
        (endMarkerChars ++ id).drop o.length ++ ':' :: d :: X := by
      rw [hM]
      simp
    have htk := congrArg
      (fun l => l.take ((endMarkerChars ++ id).length - o.length)) hM2
    simp only at htk
    rw [List.take_append_of_le_length (by omega)] at htk
    rw [List.take_left' (List.length_drop ..)] at htk
    exact no_border id hlen halnum o.length ho1 hD htk.symm

/-- Under a marker-prefix-collision-free prefix `O`, no marker-regex match
begins before the genuine marker line. -/
lemma no_match_before (id O ds T : List Char) (k : Nat)
    (hlen : 8 ≤ id.length) (halnum : id.all isAlnumChar = true)
    (hcoll : hasMarkerCollision id O = false)
    (hk : k < O.length) :
    matchMarkerAt id ((O ++ (markerLineFor id ds ++ T)).drop k) = none := by
  cases hmm : matchMarkerAt id ((O ++ (markerLineFor id ds ++ T)).drop k) with
  | none => rfl
  | some ds' =>
      exfalso
      obtain ⟨hne', hdig', rest, hshape⟩ := matchMarkerAt_decomp id _ ds' hmm
      have hdropk : (O ++ (markerLineFor id ds ++ T)).drop k =
          O.drop k ++ (markerLineFor id ds ++ T) :=
        List.drop_append_of_le_length (le_of_lt hk)
      cases ds' with
      | nil => exact hne' rfl
      | cons d ds'' =>
          have hd : d.isDigit = true := by
            have := List.all_eq_true.mp hdig' d (List.mem_cons_self ..)
            simpa using this
          have hEQ : O.drop k ++ (markerLineFor id ds ++ T) =
              ((endMarkerChars ++ id) ++ [':']) ++
                d :: (ds'' ++ '_' :: '_' :: '_' :: rest) := by
            rw [← hdropk, hshape]
            simp
          have holen : (O.drop k).length = O.length - k := List.length_drop ..
          have ho1 : 1 ≤ (O.drop k).length := by omega
          by_cases hA : (endMarkerChars ++ id).length + 2 ≤ (O.drop k).length
          · -- the whole pattern head fits inside O: marker-prefix collision
            have hPX : (((endMarkerChars ++ id) ++ [':']) ++ [d]) ++
                (ds'' ++ '_' :: '_' :: '_' :: rest) =
                ((endMarkerChars ++ id) ++ [':']) ++
                  d :: (ds'' ++ '_' :: '_' :: '_' :: rest) := by
              simp
            have hEQ2 : (O.drop k).take ((endMarkerChars ++ id).length + 2) ++
                ((O.drop k).drop ((endMarkerChars ++ id).length + 2) ++
                  (markerLineFor id ds ++ T)) =
                (((endMarkerChars ++ id) ++ [':']) ++ [d]) ++
                  (ds'' ++ '_' :: '_' :: '_' :: rest) := by
              rw [← List.append_assoc, List.take_append_drop, hEQ, hPX]
            have hltk : ((O.drop k).take ((endMarkerChars ++ id).length + 2)).length =
                ((((endMarkerChars ++ id) ++ [':']) ++ [d])).length := by
              rw [List.length_take, Nat.min_eq_left hA]
              simp only [List.length_append, List.length_cons, List.length_nil]
            obtain ⟨htk, _⟩ := List.append_inj hEQ2 hltk
            have hopre : O.drop k = ((endMarkerChars ++ id) ++ [':']) ++
                d :: (O.drop k).drop ((endMarkerChars ++ id).length + 2) := by
              conv_lhs => rw [← List.take_append_drop ((endMarkerChars ++ id).length + 2) (O.drop k)]
              rw [htk]
              simp
            have hpre : isPrefixOfChars (endMarkerChars ++ id ++ [':']) (O.drop k) = true := by
              rw [isPrefixOfChars_iff_exists]
              refine ⟨d :: (O.drop k).drop ((endMarkerChars ++ id).length + 2), ?_⟩
              conv_lhs => rw [hopre]
            have hsd : startsDigit
                ((O.drop k).drop (endMarkerChars ++ id ++ [':']).length) = true := by
              have hdr : (O.drop k).drop ((endMarkerChars ++ id) ++ [':']).length =
                  d :: (O.drop k).drop ((endMarkerChars ++ id).length + 2) := by
                conv_lhs => rw [hopre]
                exact List.drop_left _ _
              rw [hdr, startsDigit, hd]
            have hcoll2 : hasMarkerCollision id O = true := by
              unfold hasMarkerCollision
              exact hasCollisionFrom_of_at _ O k hk hpre hsd
            rw [hcoll2] at hcoll
            cases hcoll
          · push_neg at hA
            exact short_straddle_impossible id ds T (O.drop k) _ d hlen halnum hd ho1
              hA hEQ

/-- Claim C1 counterexample, refuting the claim as stated: the precondition
only excludes complete marker-pattern occurrences in `O`, but an `O` ending in
`___TTYD_EXEC_END___<markerId>:5` (no `___` terminator, hence no pattern
occurrence) combines with the genuine marker line carrying exit code 0 into a
leftmost match at index 0 whose digit group is `5`: the job resolves with
`exitCode = 5`, not the echoed exit code `0`, and with empty output instead
of the cleaned `O`. -/
theorem exec_roundtrip_cex :
    findMarker witCfg.markerId cexO = none ∧
    (onMessage witCfg (outputCode :: (cexO ++ markerLineFor "a1b2c3d4".data ['0'])) 7
        initJob).settled =
      some (Except.ok { output := [], exitCode := 5, timedOut := false, durationMs := 7 }) ∧
    ((5 : Int) = (digitsToNat ['0'] : Int) → False) := by
  refine ⟨by decide, by decide, by decide⟩

/-- Claim C1 (amended): for every command execution job whose shell session
emits output `O` followed by the echoed marker line carrying exit-code digits
`ds` (with `O` containing no occurrence of the marker prefix plus this job's
own markerId plus `:` followed by a digit — a marker-prefix collision), the
job resolves with `exitCode` equal to the parsed digits, `timedOut = false`,
and output equal to `O` after removing the echoed command line and the marker
echo line, optionally stripping ANSI sequences, and trimming whitespace.
The markerId bounds come from the spec's `[A-Za-z0-9]` length-8-or-more
marker format. -/
theorem exec_roundtrip (cfg : JobConfig) (s : JobState) (O ds T payload : List Char)
    (now : Nat)
    (hres : s.isResolved = false)
    (hbuf : s.outputBuffer ++ payload = O ++ (markerLineFor cfg.markerId ds ++ T))
    (hid : specMarkerIdOk cfg.markerId = true)
    (hcoll : hasMarkerCollision cfg.markerId O = false)
    (hne : ds ≠ [])
    (hdig : ds.all Char.isDigit = true) :
    (onMessage cfg (outputCode :: payload) now s).settled =
      some (Except.ok
        { output := cleanAndTrim cfg O, exitCode := (digitsToNat ds : Int),
          timedOut := false, durationMs := now }) ∧
    (onMessage cfg (outputCode :: payload) now s).isResolved = true := by
  have hid2 : 8 ≤ cfg.markerId.length ∧ cfg.markerId.all isAlnumChar = true := by
    have h := hid
    unfold specMarkerIdOk at h
    rw [Bool.and_eq_true, decide_eq_true_iff] at h
    exact h
  have hmatch : matchMarkerAt cfg.markerId
      ((O ++ (markerLineFor cfg.markerId ds ++ T)).drop O.length) = some ds := by
    rw [List.drop_left]
    exact matchMarkerAt_markerLine cfg.markerId ds T hne hdig
  have hfm : findMarker cfg.markerId (s.outputBuffer ++ payload) =
      some (O.length, ds) := by
    rw [hbuf]
    exact findMarker_at cfg.markerId O _ ds
      (fun k hk => no_match_before cfg.markerId O ds T k hid2.1 hid2.2 hcoll hk)
      hmatch
  rw [onMessage_found cfg payload now s O.length ds hfm]
  have htake : (s.outputBuffer ++ payload).take O.length = O := by
    rw [hbuf]
    exact List.take_left ..
  rw [htake]
  have hres2 : ({ s with outputBuffer := s.outputBuffer ++ payload } : JobState).isResolved
      = false := hres
  constructor
  · unfold resolveWith
    rw [hres2]
    rfl
  · unfold resolveWith
    rw [hres2]
    rfl

theorem exec_roundtrip_witness :
    (onMessage witCfg
        (outputCode :: (witO ++ (markerLineFor "a1b2c3d4".data ['0'] ++ "\r\n".data))) 9
        initJob).settled =
      some (Except.ok
        { output := "hello".data, exitCode := 0, timedOut := false, durationMs := 9 }) ∧
    (onMessage witCfg
        (outputCode :: (witO ++ (markerLineFor "a1b2c3d4".data ['0'] ++ "\r\n".data))) 9
        initJob).isResolved = true :=
  exec_roundtrip witCfg initJob witO ['0'] "\r\n".data
    (witO ++ (markerLineFor "a1b2c3d4".data ['0'] ++ "\r\n".data)) 9
    rfl rfl (by decide) (by decide) (by decide) (by decide)

theorem exec_marker_exactness_witness :
    ∃ i rest ds, ds ≠ [] ∧ ds.all Char.isDigit = true ∧
      ((onMessage witCfg (outputCode :: "___TTYD_EXEC_END___a1b2c3d4:0___".data) 3
          initJob).outputBuffer).drop i =
        endMarkerChars ++ witCfg.markerId ++ ':' :: ds ++ '_' :: '_' :: '_' :: rest :=
  exec_marker_exactness witCfg initJob
    (outputCode :: "___TTYD_EXEC_END___a1b2c3d4:0___".data) 3 (by rfl) (by rfl)

end Ttyd

